import Mathlib

/-!
Simulator kernel (`Simulator/Simulator.h`): vector math, oriented bodies, car

A shallow embedding of the geometry kernel of the simulator over exact real
arithmetic (`float` is idealised as `ℝ`), followed by the properties of the
specification that concern it.
-/

namespace sf

/-! ## Data model -/

/-- Two-component vector `sf::Vector2f`. -/
@[ext]
structure Vector2f where
  x : ℝ
  y : ℝ

namespace Vector2f

/-- Component-wise sum, `operator +` of `sf::Vector2f`. -/
def add (a b : Vector2f) : Vector2f := ⟨a.x + b.x, a.y + b.y⟩

/-- Component-wise difference, `operator -` of `sf::Vector2f`. -/
def sub (a b : Vector2f) : Vector2f := ⟨a.x - b.x, a.y - b.y⟩

/-- Euclidean norm `std::sqrt(x * x + y * y)`. -/
noncomputable def norm (v : Vector2f) : ℝ := Real.sqrt (v.x * v.x + v.y * v.y)

/-- Scalar product of two vectors. -/
def dot (a b : Vector2f) : ℝ := a.x * b.x + a.y * b.y

end Vector2f

/-- The affine 3x3 matrix of `sf::Transform` (SFML 2), row by row, as its
nine-argument constructor takes it. -/
structure Transform where
  a00 : ℝ
  a01 : ℝ
  a02 : ℝ
  a10 : ℝ
  a11 : ℝ
  a12 : ℝ
  a20 : ℝ
  a21 : ℝ
  a22 : ℝ

namespace Transform

/-- The default-constructed `sf::Transform`: the identity. -/
def identity : Transform := ⟨1, 0, 0, 0, 1, 0, 0, 0, 1⟩

/-- Matrix product `Transform::combine`: `this := this * other`. -/
def combine (t o : Transform) : Transform :=
  ⟨t.a00 * o.a00 + t.a01 * o.a10 + t.a02 * o.a20,
   t.a00 * o.a01 + t.a01 * o.a11 + t.a02 * o.a21,
   t.a00 * o.a02 + t.a01 * o.a12 + t.a02 * o.a22,
   t.a10 * o.a00 + t.a11 * o.a10 + t.a12 * o.a20,
   t.a10 * o.a01 + t.a11 * o.a11 + t.a12 * o.a21,
   t.a10 * o.a02 + t.a11 * o.a12 + t.a12 * o.a22,
   t.a20 * o.a00 + t.a21 * o.a10 + t.a22 * o.a20,
   t.a20 * o.a01 + t.a21 * o.a11 + t.a22 * o.a21,
   t.a20 * o.a02 + t.a21 * o.a12 + t.a22 * o.a22⟩

/-- Rotation `Transform::rotate(angle)` of SFML, the angle in degrees: combines
the transform with the standard rotation matrix of `angle * pi / 180` radians
(the library's `float` constant for pi is idealised as `Real.pi`). -/
noncomputable def rotate (t : Transform) (angle : ℝ) : Transform :=
  let rad := angle * Real.pi / 180
  let cos := Real.cos rad
  let sin := Real.sin rad
  t.combine ⟨cos, -sin, 0, sin, cos, 0, 0, 0, 1⟩

/-- Image of a point, `Transform::transformPoint`. -/
def transformPoint (t : Transform) (p : Vector2f) : Vector2f :=
  ⟨t.a00 * p.x + t.a01 * p.y + t.a02, t.a10 * p.x + t.a11 * p.y + t.a12⟩

end Transform

/-- Source `rotateVector`: an identity transform rotated by `angleDegrees`,
applied to the vector. -/
noncomputable def rotateVector (vector : Vector2f) (angleDegrees : ℝ) : Vector2f :=
  let rotation := Transform.identity.rotate angleDegrees
  rotation.transformPoint vector

/-- Division that records a zero divisor as a failure; used to trace whether
`normalizeVector` can reach its division with a zero magnitude. -/
noncomputable def checkedDiv (a b : ℝ) : Option ℝ :=
  if b = 0 then none else some (a / b)

/-- Source `normalizeVector`: the vector divided by its magnitude, and the
zero vector when the magnitude is zero. -/
noncomputable def normalizeVector (vector : Vector2f) : Vector2f :=
  let magnitude := Real.sqrt (vector.x * vector.x + vector.y * vector.y)
  if magnitude = 0 then ⟨0, 0⟩
  else ⟨vector.x / magnitude, vector.y / magnitude⟩

/-- The body of `normalizeVector` with each division performed by
`checkedDiv`: `none` exactly when a division by a zero magnitude is reached. -/
noncomputable def normalizeVectorChecked (vector : Vector2f) : Option Vector2f :=
  let magnitude := Real.sqrt (vector.x * vector.x + vector.y * vector.y)
  if magnitude = 0 then some ⟨0, 0⟩
  else
    match checkedDiv vector.x magnitude, checkedDiv vector.y magnitude with
    | some qx, some qy => some ⟨qx, qy⟩
    | _, _ => none

/-- State of `struct Object` that the kinematics reads and writes: the
position of the shape `pShape_`, the heading `front` and the two speeds. -/
structure Object where
  position : Vector2f
  front : Vector2f := ⟨0, -1⟩
  turnSpeed_ : ℝ := 0.03
  speed_ : ℝ := 0.1

namespace Object

/-- Source `Object::move2`: absolute repositioning. -/
def move2 (o : Object) (pos : Vector2f) : Object := { o with position := pos }

/-- Source `Object::move`: the position is shifted by `direct`. -/
def move (o : Object) (direct : Vector2f) : Object :=
  { o with position := o.position.add direct }

/-- Source `Object::turn`: the heading rotated by plus or minus `turnSpeed_`
and then normalized. -/
noncomputable def turn (o : Object) (right : Bool) : Object :=
  let front1 := if right then rotateVector o.front o.turnSpeed_
                else rotateVector o.front (-o.turnSpeed_)
  { o with front := normalizeVector front1 }

/-- Source `Object::turn90`: the heading rotated by plus or minus 90 degrees
and then normalized. -/
noncomputable def turn90 (o : Object) (right : Bool) : Object :=
  let front1 := if right then rotateVector o.front 90
                else rotateVector o.front (-90)
  { o with front := normalizeVector front1 }

end Object

/-- One heading-changing call on an `Object`. -/
inductive TurnCall where
  | turn (right : Bool)
  | turn90 (right : Bool)

/-- Performs one heading-changing call. -/
noncomputable def TurnCall.run (o : Object) : TurnCall → Object
  | TurnCall.turn right => o.turn right
  | TurnCall.turn90 right => o.turn90 right

/-- Performs a finite sequence of heading-changing calls, first to last. -/
noncomputable def runTurns (o : Object) (calls : List TurnCall) : Object :=
  calls.foldl TurnCall.run o

/-- Modelled from the spec: an obstacle record of section 3, a rectangle given
by its center, its half-extents and its rotation in degrees. The header only
names the `RectangleShape` parameter; the geometry code is not part of it. -/
structure Obstacle where
  center : Vector2f
  halfExtents : Vector2f
  rotation : ℝ

/-- State of `struct DistanceSensor`: an `Object` (mount point and direction)
with the maximum radius handed to its constructor and the shared obstacle
collection `pWalls_`, `none` for a missing collection. -/
structure DistanceSensor extends Object where
  radius : ℝ
  pWalls_ : Option (List Obstacle)

namespace DistanceSensor

/-- The inherited `Object::move`, which `DistanceSensor` does not override. -/
def move (s : DistanceSensor) (direct : Vector2f) : DistanceSensor :=
  { s with toObject := s.toObject.move direct }

end DistanceSensor

/-- Set of ray parameters that lie inside a slab: nothing, the whole line, or
the parameters between `near` and `far`. -/
inductive ParamInterval where
  | empty
  | line
  | segment (near far : ℝ)

/-- Modelled from the spec: the parameters `t` at which `origin + t * direction`
lies between the two rectangle edges `-half` and `half` of one local axis; a
ray parallel to the axis is inside for all `t` or for none. -/
noncomputable def slab (origin direction half : ℝ) : ParamInterval :=
  if direction = 0 then
    if -half ≤ origin ∧ origin ≤ half then ParamInterval.line else ParamInterval.empty
  else
    ParamInterval.segment
      (min ((-half - origin) / direction) ((half - origin) / direction))
      (max ((-half - origin) / direction) ((half - origin) / direction))

/-- Modelled from the spec: clipping one parametric interval by another. -/
noncomputable def ParamInterval.clip : ParamInterval → ParamInterval → ParamInterval
  | ParamInterval.empty, _ => ParamInterval.empty
  | _, ParamInterval.empty => ParamInterval.empty
  | ParamInterval.line, i => i
  | i, ParamInterval.line => i
  | ParamInterval.segment n1 f1, ParamInterval.segment n2 f2 =>
      ParamInterval.segment (max n1 n2) (min f1 f2)

namespace DistanceSensor

/-- Modelled from the spec: `DistanceSensor::rectangleDistance` (section 4.3),
whose body is not in the header. The ray is taken into the local, unrotated
frame of the obstacle, clipped against the two slabs, and hits when the clipped
interval is non-empty with a non-negative near bound; the hit distance is kept
when it lies within the radius. -/
noncomputable def rectangleDistance (s : DistanceSensor) (rectangle : Obstacle) :
    Option ℝ :=
  let origin := rotateVector (s.position.sub rectangle.center) (-rectangle.rotation)
  let direction := rotateVector s.front (-rectangle.rotation)
  match (slab origin.x direction.x rectangle.halfExtents.x).clip
      (slab origin.y direction.y rectangle.halfExtents.y) with
  | ParamInterval.segment near far =>
      if near ≤ far ∧ 0 ≤ near then
        let distance := near * s.front.norm
        if distance ≤ s.radius then some distance else none
      else none
  | _ => none

/-- Modelled from the spec: the hit distances that `rectangleDistance` returns
over the obstacle collection, in the order of the collection; a missing
collection has none (section 7). -/
noncomputable def hitDistances (s : DistanceSensor) : List ℝ :=
  (s.pWalls_.getD []).filterMap s.rectangleDistance

/-- Modelled from the spec: `DistanceSensor::measureDistance` (section 4.3),
whose body is not in the header: the minimum over all obstacles of the hit
distances, or the maximum radius if no obstacle is hit within range. -/
noncomputable def measureDistance (s : DistanceSensor) : ℝ :=
  match s.hitDistances with
  | [] => s.radius
  | d :: ds => ds.foldl min d

end DistanceSensor

/-- Result of an element access into a `std::vector`. -/
inductive Access (α : Type) where
  /-- The access yields the stored element. -/
  | element (a : α)
  /-- The access is diagnosed and reported as out of bounds. -/
  | violationReported
  /-- The access has undefined behaviour: nothing is checked or reported. -/
  | undefinedBehaviour

/-- The unchecked `std::vector::operator[]` called with an `int`: an index that
is not below the size has undefined behaviour, and a negative `int` converts to
a `size_type` beyond every possible size. -/
def vectorSubscript {α : Type} (v : List α) (pos : Int) : Access α :=
  if pos < 0 then Access.undefinedBehaviour
  else
    match v[pos.toNat]? with
    | some a => Access.element a
    | none => Access.undefinedBehaviour

/-- Conversion of a `float` to `int`: the fractional part is discarded, and the
conversion is undefined (`none`) when the result does not fit 32 bits. -/
noncomputable def floatToInt (d : ℝ) : Option Int :=
  let t : Int := if 0 ≤ d then Int.floor d else Int.ceil d
  if -2 ^ 31 ≤ t ∧ t ≤ 2 ^ 31 - 1 then some t else none

/-- State of `struct Car` that the kinematics reads and writes: the `Object`,
the sensors and the travelled-distance counter. -/
structure Car extends Object where
  sensors_ : List DistanceSensor
  radiusSensors : Int := 10
  travelledDistance : ℝ := 0

namespace Car

/-- Source `Car::move`: moves the body, adds the length of `direct` to the
counter, and moves every sensor. -/
noncomputable def move (c : Car) (direct : Vector2f) : Car :=
  { c with
    toObject := c.toObject.move direct
    travelledDistance :=
      c.travelledDistance + Real.sqrt (direct.x * direct.x + direct.y * direct.y)
    sensors_ := c.sensors_.map (fun sensor => sensor.move direct) }

/-- Source `Car::distanceSensor`: `sensors_[pos]`. -/
def distanceSensor (c : Car) (pos : Int) : Access DistanceSensor :=
  vectorSubscript c.sensors_ pos

/-- Source `Car::getTravelledDistance`: the counter converted to `int` is
returned and the counter is cleared. -/
noncomputable def getTravelledDistance (c : Car) : Option (Int × Car) :=
  match floatToInt c.travelledDistance with
  | some ret => some (ret, { c with travelledDistance := 0 })
  | none => none

end Car

/-- Performs a sequence of `Car::move` calls, first to last. -/
noncomputable def runMoves (c : Car) (deltas : List Vector2f) : Car :=
  deltas.foldl Car.move c

/-- Pose of an object: position and heading. -/
def Object.pose (o : Object) : Vector2f × Vector2f := (o.position, o.front)

/-- An object at the origin with the default heading and speeds. -/
def originObject : Object := { position := ⟨0, 0⟩ }

/-- An object at `(2, 5)` with heading `(1, 0)`. -/
def eastObject : Object := { position := ⟨2, 5⟩, front := ⟨1, 0⟩ }

/-- A sensor at the origin with the default heading, radius 10 and no obstacle
collection. -/
def originSensor : DistanceSensor :=
  { position := ⟨0, 0⟩, radius := 10, pWalls_ := none }

/-- The obstacle of scenario A of the spec: center `(50, 0)`, half-extents
`(5, 5)`, no rotation. -/
def scenarioObstacle : Obstacle :=
  { center := ⟨50, 0⟩, halfExtents := ⟨5, 5⟩, rotation := 0 }

/-- The sensor of scenario A of the spec, with the radius left open: at the
origin, looking along `(1, 0)`, one obstacle `scenarioObstacle`. -/
def scenarioSensor (radius : ℝ) : DistanceSensor :=
  { position := ⟨0, 0⟩, front := ⟨1, 0⟩, radius := radius,
    pWalls_ := some [scenarioObstacle] }

/-- A sensor at the origin with a negative radius and an empty obstacle
collection. -/
def negativeRadiusSensor : DistanceSensor :=
  { position := ⟨0, 0⟩, radius := -1, pWalls_ := some [] }

/-- A car at the origin with the default heading, five sensors and a cleared
counter. -/
def originCar : Car :=
  { position := ⟨0, 0⟩, sensors_ := List.replicate 5 originSensor }

/-! ## Vector math -/

theorem rotateVector_x (v : Vector2f) (a : ℝ) :
    (rotateVector v a).x =
      v.x * Real.cos (a * Real.pi / 180) - v.y * Real.sin (a * Real.pi / 180) := by
  simp [rotateVector, Transform.rotate, Transform.combine, Transform.identity,
    Transform.transformPoint]
  ring

theorem rotateVector_y (v : Vector2f) (a : ℝ) :
    (rotateVector v a).y =
      v.x * Real.sin (a * Real.pi / 180) + v.y * Real.cos (a * Real.pi / 180) := by
  simp [rotateVector, Transform.rotate, Transform.combine, Transform.identity,
    Transform.transformPoint]
  ring

theorem norm_rotateVector (v : Vector2f) (a : ℝ) :
    (rotateVector v a).norm = v.norm := by
  unfold Vector2f.norm
  rw [rotateVector_x, rotateVector_y]
  congr 1
  have h := Real.cos_sq_add_sin_sq (a * Real.pi / 180)
  nlinarith [h]

theorem norm_nonneg (v : Vector2f) : 0 ≤ v.norm := Real.sqrt_nonneg _

theorem norm_eq_zero_iff (v : Vector2f) : v.norm = 0 ↔ v = ⟨0, 0⟩ := by
  unfold Vector2f.norm
  rw [Real.sqrt_eq_zero (by nlinarith [mul_self_nonneg v.x, mul_self_nonneg v.y])]
  constructor
  · intro h
    have hx : v.x = 0 := by nlinarith [mul_self_nonneg v.x, mul_self_nonneg v.y]
    have hy : v.y = 0 := by nlinarith [mul_self_nonneg v.x, mul_self_nonneg v.y]
    ext <;> simp [hx, hy]
  · intro h
    rw [h]
    simp

theorem normalizeVector_of_norm_ne_zero (v : Vector2f) (h : v.norm ≠ 0) :
    normalizeVector v = ⟨v.x / v.norm, v.y / v.norm⟩ := by
  unfold Vector2f.norm at h
  simp [normalizeVector, Vector2f.norm, h]

theorem norm_normalizeVector (v : Vector2f) (h : v.norm ≠ 0) :
    (normalizeVector v).norm = 1 := by
  rw [normalizeVector_of_norm_ne_zero v h]
  have hpos : 0 < v.norm := lt_of_le_of_ne (norm_nonneg v) (Ne.symm h)
  have hsq : v.norm * v.norm = v.x * v.x + v.y * v.y := by
    unfold Vector2f.norm
    exact Real.mul_self_sqrt (by nlinarith [mul_self_nonneg v.x, mul_self_nonneg v.y])
  show Real.sqrt (v.x / v.norm * (v.x / v.norm) + v.y / v.norm * (v.y / v.norm)) = 1
  have : v.x / v.norm * (v.x / v.norm) + v.y / v.norm * (v.y / v.norm) = 1 := by
    field_simp
    nlinarith [hsq]
  rw [this, Real.sqrt_one]

theorem normalizeVector_of_norm_one (v : Vector2f) (h : v.norm = 1) :
    normalizeVector v = v := by
  rw [normalizeVector_of_norm_ne_zero v (by rw [h]; exact one_ne_zero), h]
  ext <;> simp

theorem rotateVector_eq (v : Vector2f) (a : ℝ) :
    rotateVector v a =
      ⟨v.x * Real.cos (a * Real.pi / 180) - v.y * Real.sin (a * Real.pi / 180),
       v.x * Real.sin (a * Real.pi / 180) + v.y * Real.cos (a * Real.pi / 180)⟩ := by
  ext
  · exact rotateVector_x v a
  · exact rotateVector_y v a

theorem rotateVector_ninety (v : Vector2f) : rotateVector v 90 = ⟨-v.y, v.x⟩ := by
  rw [rotateVector_eq]
  have h : (90 : ℝ) * Real.pi / 180 = Real.pi / 2 := by ring
  rw [h, Real.cos_pi_div_two, Real.sin_pi_div_two]
  ext <;> simp

theorem rotateVector_neg_ninety (v : Vector2f) : rotateVector v (-90) = ⟨v.y, -v.x⟩ := by
  rw [rotateVector_eq]
  have h : (-90 : ℝ) * Real.pi / 180 = -(Real.pi / 2) := by ring
  rw [h, Real.cos_neg, Real.sin_neg, Real.cos_pi_div_two, Real.sin_pi_div_two]
  ext <;> simp

theorem normalizeVector_zero : normalizeVector ⟨0, 0⟩ = ⟨0, 0⟩ := by
  simp [normalizeVector]

theorem norm_ne_zero_of_ne (v : Vector2f) (h : v ≠ ⟨0, 0⟩) : v.norm ≠ 0 :=
  fun h0 => h ((norm_eq_zero_iff v).mp h0)

/-! ## Oriented body -/

theorem norm_front_turn (o : Object) (right : Bool) (h : o.front.norm = 1) :
    (o.turn right).front.norm = 1 := by
  cases right
  · show (normalizeVector (rotateVector o.front (-o.turnSpeed_))).norm = 1
    apply norm_normalizeVector
    rw [norm_rotateVector, h]
    exact one_ne_zero
  · show (normalizeVector (rotateVector o.front o.turnSpeed_)).norm = 1
    apply norm_normalizeVector
    rw [norm_rotateVector, h]
    exact one_ne_zero

theorem norm_front_turn90 (o : Object) (right : Bool) (h : o.front.norm = 1) :
    (o.turn90 right).front.norm = 1 := by
  cases right
  · show (normalizeVector (rotateVector o.front (-90))).norm = 1
    apply norm_normalizeVector
    rw [norm_rotateVector, h]
    exact one_ne_zero
  · show (normalizeVector (rotateVector o.front 90)).norm = 1
    apply norm_normalizeVector
    rw [norm_rotateVector, h]
    exact one_ne_zero

theorem norm_front_runTurns (calls : List TurnCall) :
    ∀ o : Object, o.front.norm = 1 → (runTurns o calls).front.norm = 1 := by
  induction calls with
  | nil => intro o h; exact h
  | cons call rest ih =>
    intro o h
    show (runTurns (TurnCall.run o call) rest).front.norm = 1
    apply ih
    cases call with
    | turn right => exact norm_front_turn o right h
    | turn90 right => exact norm_front_turn90 o right h

theorem norm_default_front : (⟨0, -1⟩ : Vector2f).norm = 1 := by
  simp [Vector2f.norm]

theorem front_turn90_true (o : Object) (h : o.front.norm = 1) :
    (o.turn90 true).front = ⟨-o.front.y, o.front.x⟩ := by
  show normalizeVector (rotateVector o.front 90) = _
  rw [normalizeVector_of_norm_one _ (by rw [norm_rotateVector, h]), rotateVector_ninety]

theorem front_turn90_false (o : Object) (h : o.front.norm = 1) :
    (o.turn90 false).front = ⟨o.front.y, -o.front.x⟩ := by
  show normalizeVector (rotateVector o.front (-90)) = _
  rw [normalizeVector_of_norm_one _ (by rw [norm_rotateVector, h]), rotateVector_neg_ninety]

/-! ## Claims on vector math and the oriented body -/

/-- C6: rotation composition. For every vector `v` and all angles `a`, `b` in
degrees, rotating by `a` and then by `b` equals rotating by `a + b`, where
`rotateVector v t` is `(x cos t - y sin t, x sin t + y cos t)`. -/
theorem rotateVector_rotateVector (v : Vector2f) (a b : ℝ) :
    rotateVector (rotateVector v a) b = rotateVector v (a + b) ∧
    rotateVector v a =
      ⟨v.x * Real.cos (a * Real.pi / 180) - v.y * Real.sin (a * Real.pi / 180),
       v.x * Real.sin (a * Real.pi / 180) + v.y * Real.cos (a * Real.pi / 180)⟩ := by
  refine ⟨?_, rotateVector_eq v a⟩
  have h : (a + b) * Real.pi / 180 = a * Real.pi / 180 + b * Real.pi / 180 := by ring
  ext
  · rw [rotateVector_x, rotateVector_x, rotateVector_y, rotateVector_x, h,
      Real.cos_add, Real.sin_add]
    ring
  · rw [rotateVector_y, rotateVector_x, rotateVector_y, rotateVector_y, h,
      Real.cos_add, Real.sin_add]
    ring

/-- C7: for every non-zero vector `v`, `normalizeVector v` has Euclidean norm 1
and normalizing it again leaves it unchanged. -/
theorem normalizeVector_unit_idempotent (v : Vector2f) (h : v ≠ ⟨0, 0⟩) :
    (normalizeVector v).norm = 1 ∧
    normalizeVector (normalizeVector v) = normalizeVector v := by
  have h1 : (normalizeVector v).norm = 1 := norm_normalizeVector v (norm_ne_zero_of_ne v h)
  exact ⟨h1, normalizeVector_of_norm_one _ h1⟩

theorem normalizeVector_unit_idempotent_witness :
    (⟨3, 4⟩ : Vector2f) ≠ ⟨0, 0⟩ ∧
    (normalizeVector ⟨3, 4⟩).norm = 1 ∧
    normalizeVector (normalizeVector ⟨3, 4⟩) = normalizeVector ⟨3, 4⟩ :=
  ⟨by simp [Vector2f.ext_iff],
   normalizeVector_unit_idempotent ⟨3, 4⟩ (by simp [Vector2f.ext_iff])⟩

/-- C8: `normalizeVector` of the zero vector is the zero vector, and for no
input is the division by the magnitude reached with a zero magnitude: the body
run with checked divisions always yields the result of `normalizeVector`. -/
theorem normalizeVector_zero_defined :
    normalizeVector ⟨0, 0⟩ = ⟨0, 0⟩ ∧
    normalizeVectorChecked ⟨0, 0⟩ = some ⟨0, 0⟩ ∧
    ∀ v : Vector2f, normalizeVectorChecked v = some (normalizeVector v) := by
  refine ⟨normalizeVector_zero, by simp [normalizeVectorChecked], ?_⟩
  intro v
  unfold normalizeVectorChecked normalizeVector
  by_cases hm : Real.sqrt (v.x * v.x + v.y * v.y) = 0
  · simp [hm]
  · simp [hm, checkedDiv]

/-- C1: for an `Object` that starts with the default heading `(0, -1)`, after
every finite sequence of `turn` and `turn90` calls with arbitrary arguments the
heading `front` has Euclidean norm 1. -/
theorem norm_front_after_turns (o : Object) (calls : List TurnCall)
    (h : o.front = ⟨0, -1⟩) : (runTurns o calls).front.norm = 1 :=
  norm_front_runTurns calls o (by rw [h]; exact norm_default_front)

theorem norm_front_after_turns_witness :
    ({ position := ⟨0, 0⟩ } : Object).front = ⟨0, -1⟩ ∧
    (runTurns { position := ⟨0, 0⟩ }
      [TurnCall.turn true, TurnCall.turn90 false, TurnCall.turn false]).front.norm = 1 :=
  ⟨rfl, norm_front_after_turns { position := ⟨0, 0⟩ } _ rfl⟩

/-- C9: for every unit heading `(x, y)`, `turn90(true)` sets the heading to
`(-y, x)` and `turn90(false)` sets it to `(y, -x)`; the new heading is
perpendicular to the old one, `turn90(false)` undoes `turn90(true)`, the
position is unchanged, and from the default heading `(0, -1)` the call
`turn90(true)` yields `(1, 0)`. -/
theorem turn90_quarter_turn (o : Object) (h : o.front.norm = 1) :
    (o.turn90 true).front = ⟨-o.front.y, o.front.x⟩ ∧
    (o.turn90 false).front = ⟨o.front.y, -o.front.x⟩ ∧
    (o.turn90 true).front.dot o.front = 0 ∧
    (o.turn90 false).front.dot o.front = 0 ∧
    (o.turn90 true).turn90 false = o ∧
    (o.turn90 true).position = o.position ∧
    (o.turn90 false).position = o.position ∧
    ∀ p : Vector2f, (Object.turn90 { position := p } true).front = ⟨1, 0⟩ := by
  have ht := front_turn90_true o h
  have hf := front_turn90_false o h
  refine ⟨ht, hf, ?_, ?_, ?_, rfl, rfl, ?_⟩
  · rw [ht]
    simp [Vector2f.dot]
    ring
  · rw [hf]
    simp [Vector2f.dot]
    ring
  · have h1 : (o.turn90 true).front.norm = 1 := norm_front_turn90 o true h
    have h2 := front_turn90_false (o.turn90 true) h1
    rw [ht] at h2
    simp only [neg_neg] at h2
    cases o with
    | mk position front turnSpeed speed =>
      have h3 : ((Object.mk position front turnSpeed speed).turn90 true).turn90 false =
          Object.mk position
            (((Object.mk position front turnSpeed speed).turn90 true).turn90 false).front
            turnSpeed speed := rfl
      rw [h3, h2]
  · intro p
    have h0 : ({ position := p } : Object).front.norm = 1 := norm_default_front
    rw [front_turn90_true _ h0]
    ext <;> simp

theorem turn90_quarter_turn_witness :
    eastObject.front.norm = 1 ∧
    ((eastObject.turn90 true).front = ⟨-eastObject.front.y, eastObject.front.x⟩ ∧
    (eastObject.turn90 false).front = ⟨eastObject.front.y, -eastObject.front.x⟩ ∧
    (eastObject.turn90 true).front.dot eastObject.front = 0 ∧
    (eastObject.turn90 false).front.dot eastObject.front = 0 ∧
    (eastObject.turn90 true).turn90 false = eastObject ∧
    (eastObject.turn90 true).position = eastObject.position ∧
    (eastObject.turn90 false).position = eastObject.position ∧
    ∀ p : Vector2f, (Object.turn90 { position := p } true).front = ⟨1, 0⟩) :=
  ⟨by simp [eastObject, Vector2f.norm],
   turn90_quarter_turn eastObject (by simp [eastObject, Vector2f.norm])⟩

/-! ## Car -/

theorem object_turn_move (o : Object) (delta : Vector2f) (right : Bool) :
    (o.turn right).move delta = (o.move delta).turn right := rfl

theorem travelledDistance_runMoves (deltas : List Vector2f) :
    ∀ c : Car, (runMoves c deltas).travelledDistance =
      c.travelledDistance + (deltas.map Vector2f.norm).sum := by
  induction deltas with
  | nil => intro c; simp [runMoves]
  | cons d rest ih =>
    intro c
    show (runMoves (c.move d) rest).travelledDistance = _
    rw [ih]
    simp [Car.move, Vector2f.norm]
    ring

theorem sum_norm_nonneg (deltas : List Vector2f) : 0 ≤ (deltas.map Vector2f.norm).sum := by
  apply List.sum_nonneg
  intro r hr
  obtain ⟨v, _, rfl⟩ := List.mem_map.mp hr
  exact norm_nonneg v

theorem floatToInt_of_nonneg (d : ℝ) (h0 : 0 ≤ d) (h1 : d < 2 ^ 31) :
    floatToInt d = some (Int.floor d) := by
  have hlo : (0 : Int) ≤ Int.floor d := Int.floor_nonneg.mpr h0
  have hhi : Int.floor d < 2 ^ 31 := by
    rw [Int.floor_lt]
    exact_mod_cast h1
  unfold floatToInt
  simp only [h0, if_true]
  rw [if_pos]
  constructor <;> omega

theorem floatToInt_big : floatToInt (2 ^ 31) = none := by
  have hfl : Int.floor ((2 : ℝ) ^ 31) = 2 ^ 31 := by
    have h : ((2 : ℝ) ^ 31) = (((2 : Int) ^ 31 : Int) : ℝ) := by norm_num
    rw [h, Int.floor_intCast]
  unfold floatToInt
  simp only [show (0 : ℝ) ≤ 2 ^ 31 by norm_num, if_true, hfl]
  rw [if_neg]
  omega

theorem travelledDistance_move_big :
    (originCar.move ⟨2 ^ 31, 0⟩).travelledDistance = 2 ^ 31 := by
  have h : ((2 : ℝ) ^ 31) * 2 ^ 31 + 0 * 0 = 2 ^ 31 * 2 ^ 31 := by ring
  show (0 : ℝ) + Real.sqrt (2 ^ 31 * 2 ^ 31 + 0 * 0) = 2 ^ 31
  rw [h, Real.sqrt_mul_self (by norm_num)]
  norm_num

theorem floatToInt_zero : floatToInt 0 = some 0 := by
  rw [floatToInt_of_nonneg 0 le_rfl (by norm_num)]
  simp

theorem turn_advance_position_ne :
    ((originObject.turn true).move (originObject.turn true).front).position.x ≠
      ((originObject.move originObject.front).turn true).position.x := by
  have hfront : (originObject.turn true).front = rotateVector ⟨0, -1⟩ 0.03 := by
    show normalizeVector (rotateVector ⟨0, -1⟩ 0.03) = _
    exact normalizeVector_of_norm_one _ (by rw [norm_rotateVector, norm_default_front])
  have hpos : 0 < Real.sin (0.03 * Real.pi / 180) := by
    apply Real.sin_pos_of_pos_of_lt_pi
    · have := Real.pi_pos
      positivity
    · have := Real.pi_pos
      nlinarith
  show (0 : ℝ) + ((originObject.turn true).front).x ≠ 0 + 0
  rw [hfront, rotateVector_x]
  simp only [zero_mul, zero_sub, zero_add, neg_mul, one_mul, neg_neg]
  exact ne_of_gt hpos

/-! ## Claims on the car -/

/-- C3: for every `Car` state and every delta, `move(delta)` adds delta to the
position of the car and of every sensor, increases the travelled-distance
counter by `sqrt(delta.x^2 + delta.y^2)`, and leaves the heading of the car and
of every sensor unchanged. -/
theorem car_move_postcondition (c : Car) (delta : Vector2f) :
    (c.move delta).position = c.position.add delta ∧
    (c.move delta).sensors_.length = c.sensors_.length ∧
    (c.move delta).sensors_.map (fun s => s.position) =
      c.sensors_.map (fun s => s.position.add delta) ∧
    (c.move delta).travelledDistance =
      c.travelledDistance + Real.sqrt (delta.x ^ 2 + delta.y ^ 2) ∧
    (c.move delta).front = c.front ∧
    (c.move delta).sensors_.map (fun s => s.front) = c.sensors_.map (fun s => s.front) := by
  refine ⟨rfl, by simp [Car.move], ?_, ?_, rfl, ?_⟩
  · simp [Car.move, DistanceSensor.move, Object.move, Function.comp_def]
  · simp [Car.move, pow_two]
  · simp [Car.move, DistanceSensor.move, Object.move, Function.comp_def]

/-- C5, as stated, fails: no pose, delta and turn direction exist for which
`turn(right)` followed by `move(delta)` leaves another pose than `move(delta)`
followed by `turn(right)`. -/
theorem turn_move_order_sensitive_false :
    ¬ ∃ (o : Object) (delta : Vector2f) (right : Bool),
      o.front.norm = 1 ∧
      ((o.turn right).move delta).pose ≠ ((o.move delta).turn right).pose := by
  rintro ⟨o, delta, right, _, hne⟩
  exact hne (by rw [object_turn_move])

/-- C5, amended: for every pose, every delta and every turn direction,
`turn(right)` followed by `move(delta)` leaves the same object, hence the same
pose, as `move(delta)` followed by `turn(right)`, and `Car::move` acts on the
pose of a car as `Object::move` does. The order matters only when the delta
handed to `move` is taken from the current heading: from the default pose,
`turn(true)` followed by a move along the heading leaves another pose than a
move along the heading followed by `turn(true)`. -/
theorem turn_move_commute (o : Object) (delta : Vector2f) (right : Bool) :
    (o.turn right).move delta = (o.move delta).turn right ∧
    ((o.turn right).move delta).pose = ((o.move delta).turn right).pose ∧
    (∀ c : Car, (c.move delta).toObject = c.toObject.move delta) ∧
    ((originObject.turn true).move (originObject.turn true).front).pose ≠
      ((originObject.move originObject.front).turn true).pose :=
  ⟨object_turn_move o delta right, by rw [object_turn_move], fun _ => rfl,
    fun h => turn_advance_position_ne (congrArg (fun q => q.1.x) h)⟩

/-- C4, as stated, fails: on a car with five sensors the accesses at index 5
and at index -1 are not reported as out of bounds; they have undefined
behaviour. -/
theorem distanceSensor_not_checked :
    originCar.sensors_.length = 5 ∧
    originCar.distanceSensor 5 = Access.undefinedBehaviour ∧
    originCar.distanceSensor 5 ≠ Access.violationReported ∧
    originCar.distanceSensor (-1) = Access.undefinedBehaviour ∧
    originCar.distanceSensor (-1) ≠ Access.violationReported := by
  have h5 : originCar.distanceSensor 5 = Access.undefinedBehaviour := by
    simp [Car.distanceSensor, vectorSubscript, originCar]
  have h1 : originCar.distanceSensor (-1) = Access.undefinedBehaviour := by
    simp [Car.distanceSensor, vectorSubscript]
  refine ⟨by simp [originCar], h5, ?_, h1, ?_⟩
  · rw [h5]
    exact fun h => Access.noConfusion h
  · rw [h1]
    exact fun h => Access.noConfusion h

/-- C4, amended: `distanceSensor(index)` performs no bounds check. For every
index inside `[0, number of sensors)` it returns the sensor stored at that
position; for every index outside it the access has undefined behaviour and
nothing is reported. -/
theorem distanceSensor_unchecked (c : Car) (pos : Int) :
    (0 ≤ pos ∧ pos < c.sensors_.length →
      ∃ h : pos.toNat < c.sensors_.length,
        c.distanceSensor pos = Access.element (c.sensors_.get ⟨pos.toNat, h⟩)) ∧
    (¬ (0 ≤ pos ∧ pos < c.sensors_.length) →
      c.distanceSensor pos = Access.undefinedBehaviour) ∧
    c.distanceSensor pos ≠ Access.violationReported := by
  have key : (0 ≤ pos ∧ pos < c.sensors_.length →
      ∃ h : pos.toNat < c.sensors_.length,
        c.distanceSensor pos = Access.element (c.sensors_.get ⟨pos.toNat, h⟩)) ∧
    (¬ (0 ≤ pos ∧ pos < c.sensors_.length) →
      c.distanceSensor pos = Access.undefinedBehaviour) := by
    constructor
    · rintro ⟨h0, h1⟩
      have h : pos.toNat < c.sensors_.length := by omega
      refine ⟨h, ?_⟩
      unfold Car.distanceSensor vectorSubscript
      rw [if_neg (by omega), List.getElem?_eq_getElem h]
      rfl
    · intro hn
      unfold Car.distanceSensor vectorSubscript
      by_cases hneg : pos < 0
      · rw [if_pos hneg]
      · rw [if_neg hneg, List.getElem?_eq_none (by omega)]
  refine ⟨key.1, key.2, ?_⟩
  by_cases hin : 0 ≤ pos ∧ pos < c.sensors_.length
  · obtain ⟨h, he⟩ := key.1 hin
    rw [he]
    exact fun h => Access.noConfusion h
  · rw [key.2 hin]
    exact fun h => Access.noConfusion h

theorem distanceSensor_unchecked_witness :
    (((0 : Int) ≤ 2 ∧ (2 : Int) < originCar.sensors_.length) ∧
      ∃ h : (2 : Int).toNat < originCar.sensors_.length,
        originCar.distanceSensor 2 =
          Access.element (originCar.sensors_.get ⟨(2 : Int).toNat, h⟩)) ∧
    (¬ ((0 : Int) ≤ 7 ∧ (7 : Int) < originCar.sensors_.length) ∧
      originCar.distanceSensor 7 = Access.undefinedBehaviour) :=
  have hin : (0 : Int) ≤ 2 ∧ (2 : Int) < originCar.sensors_.length :=
    ⟨by decide, by simp [originCar]⟩
  have hout : ¬ ((0 : Int) ≤ 7 ∧ (7 : Int) < originCar.sensors_.length) := by
    simp [originCar]
  ⟨⟨hin, (distanceSensor_unchecked originCar 2).1 hin⟩,
   ⟨hout, (distanceSensor_unchecked originCar 7).2.1 hout⟩⟩

/-- C2, as stated, fails: after a single move by `(1/2, 0)` from a cleared
counter the counter holds `1/2`, and the first `getTravelledDistance()` returns
0, not `1/2`; the second returns 0. After a single move by `(2^31, 0)` the
counter holds `2^31`, which no `int` holds, and the call has no defined
result. -/
theorem getTravelledDistance_truncates :
    ((originCar.move ⟨1 / 2, 0⟩).travelledDistance = 1 / 2 ∧
    ∃ c1 : Car,
      (originCar.move ⟨1 / 2, 0⟩).getTravelledDistance = some (0, c1) ∧
      (((0 : Int) : ℝ) ≠ (originCar.move ⟨1 / 2, 0⟩).travelledDistance) ∧
      c1.getTravelledDistance = some (0, c1)) ∧
    (originCar.move ⟨2 ^ 31, 0⟩).travelledDistance = 2 ^ 31 ∧
    (originCar.move ⟨2 ^ 31, 0⟩).getTravelledDistance = none := by
  refine ⟨?_, travelledDistance_move_big, ?_⟩
  swap
  · unfold Car.getTravelledDistance
    rw [travelledDistance_move_big, floatToInt_big]
  have hd : (originCar.move ⟨1 / 2, 0⟩).travelledDistance = 1 / 2 := by
    have h : ((1 : ℝ) / 2) * (1 / 2) + 0 * 0 = (1 / 2) * (1 / 2) := by ring
    show (0 : ℝ) + Real.sqrt (1 / 2 * (1 / 2) + 0 * 0) = 1 / 2
    rw [h, Real.sqrt_mul_self (by norm_num)]
    norm_num
  have hf : floatToInt (1 / 2) = some 0 := by
    rw [floatToInt_of_nonneg _ (by norm_num) (by norm_num)]
    congr 1
    rw [Int.floor_eq_iff]
    norm_num
  refine ⟨hd, { originCar.move ⟨1 / 2, 0⟩ with travelledDistance := 0 }, ?_, ?_, ?_⟩
  · unfold Car.getTravelledDistance
    rw [hd, hf]
  · rw [hd]
    norm_num
  · unfold Car.getTravelledDistance
    simp only [floatToInt_zero]

/-- C2, amended: for every `Car` whose counter, cleared at the start, holds the
value `d` accumulated by preceding `move` calls (the sum of the Euclidean norms
of their deltas), with `d < 2^31`, calling `getTravelledDistance()` twice in a
row returns the integer part of `d` on the first call and 0 on the second. -/
theorem getTravelledDistance_read_and_clear (c0 : Car) (deltas : List Vector2f)
    (h0 : c0.travelledDistance = 0) (hd : (deltas.map Vector2f.norm).sum < 2 ^ 31) :
    (runMoves c0 deltas).travelledDistance = (deltas.map Vector2f.norm).sum ∧
    ∃ c1 : Car,
      (runMoves c0 deltas).getTravelledDistance =
        some (Int.floor (deltas.map Vector2f.norm).sum, c1) ∧
      c1.getTravelledDistance = some (0, c1) := by
  have hsum : (runMoves c0 deltas).travelledDistance = (deltas.map Vector2f.norm).sum := by
    rw [travelledDistance_runMoves, h0, zero_add]
  refine ⟨hsum, { runMoves c0 deltas with travelledDistance := 0 }, ?_, ?_⟩
  · unfold Car.getTravelledDistance
    rw [hsum, floatToInt_of_nonneg _ (sum_norm_nonneg deltas) hd]
  · unfold Car.getTravelledDistance
    simp only [floatToInt_zero]

theorem getTravelledDistance_read_and_clear_witness :
    originCar.travelledDistance = 0 ∧
    (([⟨3, 4⟩, ⟨0, 0⟩] : List Vector2f).map Vector2f.norm).sum < 2 ^ 31 ∧
    ((runMoves originCar [⟨3, 4⟩, ⟨0, 0⟩]).travelledDistance =
      (([⟨3, 4⟩, ⟨0, 0⟩] : List Vector2f).map Vector2f.norm).sum ∧
    ∃ c1 : Car,
      (runMoves originCar [⟨3, 4⟩, ⟨0, 0⟩]).getTravelledDistance =
        some (Int.floor (([⟨3, 4⟩, ⟨0, 0⟩] : List Vector2f).map Vector2f.norm).sum, c1) ∧
      c1.getTravelledDistance = some (0, c1)) :=
  have hlt : (([⟨3, 4⟩, ⟨0, 0⟩] : List Vector2f).map Vector2f.norm).sum < 2 ^ 31 := by
    have h : ((3 : ℝ) * 3 + 4 * 4) = 5 * 5 := by norm_num
    simp only [List.map, List.sum_cons, List.sum_nil, Vector2f.norm]
    rw [h, Real.sqrt_mul_self (by norm_num)]
    norm_num
  ⟨rfl, hlt, getTravelledDistance_read_and_clear originCar _ rfl hlt⟩

/-! ## Range sensor -/

theorem rectangleDistance_range (s : DistanceSensor) (w : Obstacle) (d : ℝ)
    (h : s.rectangleDistance w = some d) : 0 ≤ d ∧ d ≤ s.radius := by
  unfold DistanceSensor.rectangleDistance at h
  simp only at h
  split at h
  · rename_i near far _
    split at h
    · rename_i hnf
      split at h
      · rename_i hle
        have hd : near * s.front.norm = d := Option.some.inj h
        rw [← hd]
        exact ⟨mul_nonneg hnf.2 (norm_nonneg _), hle⟩
      · exact absurd h (by simp)
    · exact absurd h (by simp)
  · exact absurd h (by simp)

theorem mem_hitDistances (s : DistanceSensor) (d : ℝ) :
    d ∈ s.hitDistances ↔ ∃ w ∈ s.pWalls_.getD [], s.rectangleDistance w = some d := by
  unfold DistanceSensor.hitDistances
  rw [List.mem_filterMap]

theorem hitDistances_range (s : DistanceSensor) (d : ℝ) (h : d ∈ s.hitDistances) :
    0 ≤ d ∧ d ≤ s.radius := by
  obtain ⟨w, _, hw⟩ := (mem_hitDistances s d).mp h
  exact rectangleDistance_range s w d hw

theorem foldl_min_spec (ds : List ℝ) :
    ∀ d : ℝ, ds.foldl min d ∈ d :: ds ∧ ∀ e ∈ d :: ds, ds.foldl min d ≤ e := by
  induction ds with
  | nil => intro d; simp
  | cons e rest ih =>
    intro d
    obtain ⟨hmem, hle⟩ := ih (min d e)
    have hmin : rest.foldl min (min d e) ≤ min d e := hle _ (List.mem_cons_self _ _)
    constructor
    · show rest.foldl min (min d e) ∈ d :: e :: rest
      rcases List.mem_cons.mp hmem with h | h
      · rcases min_choice d e with hc | hc
        · rw [h, hc]; simp
        · rw [h, hc]; simp
      · simp [h]
    · intro x hx
      show rest.foldl min (min d e) ≤ x
      rcases List.mem_cons.mp hx with h | h
      · rw [h]; exact le_trans hmin (min_le_left _ _)
      · rcases List.mem_cons.mp h with h2 | h2
        · rw [h2]; exact le_trans hmin (min_le_right _ _)
        · exact hle x (List.mem_cons_of_mem _ h2)

theorem measureDistance_of_nil (s : DistanceSensor) (h : s.hitDistances = []) :
    s.measureDistance = s.radius := by
  unfold DistanceSensor.measureDistance
  rw [h]

theorem measureDistance_of_ne_nil (s : DistanceSensor) (h : s.hitDistances ≠ []) :
    s.measureDistance ∈ s.hitDistances ∧ ∀ e ∈ s.hitDistances, s.measureDistance ≤ e := by
  unfold DistanceSensor.measureDistance
  cases hh : s.hitDistances with
  | nil => exact absurd hh h
  | cons d ds => exact foldl_min_spec ds d

theorem hitDistances_eq_nil_iff (s : DistanceSensor) :
    s.hitDistances = [] ↔ ∀ w ∈ s.pWalls_.getD [], s.rectangleDistance w = none := by
  unfold DistanceSensor.hitDistances
  rw [List.filterMap_eq_nil_iff]

theorem scenarioSensor_rectangleDistance (radius : ℝ) :
    (scenarioSensor radius).rectangleDistance scenarioObstacle =
      if (45 : ℝ) ≤ radius then some 45 else none := by
  have hx : (slab (-50) 1 5) = ParamInterval.segment 45 55 := by
    unfold slab
    rw [if_neg one_ne_zero]
    norm_num
  have hy : (slab 0 0 5) = ParamInterval.line := by
    unfold slab
    norm_num
  have hn : (⟨1, 0⟩ : Vector2f).norm = 1 := by simp [Vector2f.norm]
  unfold DistanceSensor.rectangleDistance
  simp only [scenarioSensor, scenarioObstacle, rotateVector_eq, Vector2f.sub]
  norm_num
  rw [hx, hy, hn]
  simp only [ParamInterval.clip]
  norm_num

theorem scenarioSensor_hitDistances (radius : ℝ) (h : 45 ≤ radius) :
    (scenarioSensor radius).hitDistances = [45] := by
  have hw : (scenarioSensor radius).pWalls_.getD [] = [scenarioObstacle] := rfl
  unfold DistanceSensor.hitDistances
  rw [hw, List.filterMap_cons, scenarioSensor_rectangleDistance, if_pos h]
  rfl

/-- Scenario A of the spec: radius 100, the obstacle centered at `(50, 0)` is
measured at distance 45. -/
theorem scenarioA : (scenarioSensor 100).measureDistance = 45 := by
  unfold DistanceSensor.measureDistance
  rw [scenarioSensor_hitDistances 100 (by norm_num)]
  rfl

/-! ## Claims on the range sensor -/

/-- C10, as stated, fails. With radius 45 the obstacle of scenario A is hit at
distance 45, within the range `[0, 45]`, and `measureDistance()` equals the
radius all the same, so "equals radius" does not imply "no obstacle is hit";
and with radius -1 and no obstacle the result -1 is not in `[0, radius]`. -/
theorem measureDistance_radius_iff_fails :
    ¬ ((scenarioSensor 45).measureDistance = (scenarioSensor 45).radius ↔
        ∀ w ∈ (scenarioSensor 45).pWalls_.getD [],
          (scenarioSensor 45).rectangleDistance w = none) ∧
    (scenarioSensor 45).measureDistance = 45 ∧
    (scenarioSensor 45).rectangleDistance scenarioObstacle = some 45 ∧
    negativeRadiusSensor.measureDistance = -1 ∧
    ¬ (0 ≤ negativeRadiusSensor.measureDistance ∧
        negativeRadiusSensor.measureDistance ≤ negativeRadiusSensor.radius) := by
  have hhit : (scenarioSensor 45).rectangleDistance scenarioObstacle = some 45 := by
    rw [scenarioSensor_rectangleDistance, if_pos le_rfl]
  have hm : (scenarioSensor 45).measureDistance = 45 := by
    unfold DistanceSensor.measureDistance
    rw [scenarioSensor_hitDistances 45 le_rfl]
    rfl
  have hneg : negativeRadiusSensor.measureDistance = -1 := rfl
  refine ⟨?_, hm, hhit, hneg, ?_⟩
  · intro hiff
    have hnone := hiff.mp hm scenarioObstacle (List.mem_singleton.mpr rfl)
    rw [hhit] at hnone
    exact absurd hnone (by simp)
  · rw [hneg]
    norm_num

/-- C10, amended: for every sensor pose, every radius that is not negative and
every collection of obstacle rectangles (missing and empty included),
`measureDistance()` returns a value in `[0, radius]`; it equals the radius when
no obstacle is hit, and otherwise it is the minimum of the hit distances
returned by `rectangleDistance` over the obstacles; hence it is below the radius
if and only if some obstacle is hit at a distance below the radius. -/
theorem measureDistance_bound (s : DistanceSensor) (hr : 0 ≤ s.radius) :
    (0 ≤ s.measureDistance ∧ s.measureDistance ≤ s.radius) ∧
    ((∀ w ∈ s.pWalls_.getD [], s.rectangleDistance w = none) →
      s.measureDistance = s.radius) ∧
    ((∃ w ∈ s.pWalls_.getD [], ∃ d, s.rectangleDistance w = some d) →
      (∃ w ∈ s.pWalls_.getD [], s.rectangleDistance w = some s.measureDistance) ∧
      ∀ w ∈ s.pWalls_.getD [], ∀ d, s.rectangleDistance w = some d →
        s.measureDistance ≤ d) ∧
    (s.measureDistance < s.radius ↔
      ∃ w ∈ s.pWalls_.getD [], ∃ d, s.rectangleDistance w = some d ∧ d < s.radius) ∧
    (s.pWalls_ = none ∨ s.pWalls_ = some [] → s.measureDistance = s.radius) := by
  have hnone : (∀ w ∈ s.pWalls_.getD [], s.rectangleDistance w = none) →
      s.measureDistance = s.radius :=
    fun h => measureDistance_of_nil s ((hitDistances_eq_nil_iff s).mpr h)
  have hsome : (∃ w ∈ s.pWalls_.getD [], ∃ d, s.rectangleDistance w = some d) →
      (∃ w ∈ s.pWalls_.getD [], s.rectangleDistance w = some s.measureDistance) ∧
      ∀ w ∈ s.pWalls_.getD [], ∀ d, s.rectangleDistance w = some d →
        s.measureDistance ≤ d := by
    rintro ⟨w, hw, d, hd⟩
    have hne : s.hitDistances ≠ [] :=
      List.ne_nil_of_mem ((mem_hitDistances s d).mpr ⟨w, hw, hd⟩)
    obtain ⟨hmem, hle⟩ := measureDistance_of_ne_nil s hne
    exact ⟨(mem_hitDistances s _).mp hmem,
      fun w1 hw1 d1 hd1 => hle d1 ((mem_hitDistances s d1).mpr ⟨w1, hw1, hd1⟩)⟩
  have hrange : 0 ≤ s.measureDistance ∧ s.measureDistance ≤ s.radius := by
    by_cases hnil : s.hitDistances = []
    · rw [measureDistance_of_nil s hnil]
      exact ⟨hr, le_rfl⟩
    · exact hitDistances_range s _ (measureDistance_of_ne_nil s hnil).1
  refine ⟨hrange, hnone, hsome, ?_, ?_⟩
  · constructor
    · intro hlt
      by_cases hnil : s.hitDistances = []
      · rw [measureDistance_of_nil s hnil] at hlt
        exact absurd hlt (lt_irrefl _)
      · obtain ⟨w, hw, hd⟩ := (mem_hitDistances s _).mp (measureDistance_of_ne_nil s hnil).1
        exact ⟨w, hw, _, hd, hlt⟩
    · rintro ⟨w, hw, d, hd, hlt⟩
      exact lt_of_le_of_lt ((hsome ⟨w, hw, d, hd⟩).2 w hw d hd) hlt
  · intro h
    apply hnone
    rcases h with h | h <;> simp [h]

theorem measureDistance_bound_witness :
    0 ≤ (scenarioSensor 100).radius ∧
    (0 ≤ (scenarioSensor 100).measureDistance ∧
      (scenarioSensor 100).measureDistance ≤ (scenarioSensor 100).radius) ∧
    ((scenarioSensor 100).measureDistance < (scenarioSensor 100).radius ↔
      ∃ w ∈ (scenarioSensor 100).pWalls_.getD [], ∃ d,
        (scenarioSensor 100).rectangleDistance w = some d ∧
        d < (scenarioSensor 100).radius) :=
  have hr : 0 ≤ (scenarioSensor 100).radius := by
    show (0 : ℝ) ≤ 100
    norm_num
  ⟨hr, (measureDistance_bound (scenarioSensor 100) hr).1,
    (measureDistance_bound (scenarioSensor 100) hr).2.2.2.1⟩

end sf
